import Mathlib

/-!
Verification of the Folio document-formatting pipeline against its
natural-language specification.

The repository has two layers:

* a frontend API layer (`src/form-memory/frontend/src/lib/api.ts` and the
  extended variant in `src/unnamed/part_002`), written in TypeScript; its
  pure logic (input validation, form construction, filename derivation,
  error wrapping) is embedded directly below, and

* a backend pipeline (`profile` / `section` / `plan` / `merge`; the Python
  sources `skripsi_enforcer.py` and `engine/analyzer.py` referenced by the
  backend READMEs) which is not present in the repository snapshot.  Those
  parts are modelled from the specification; every such definition carries a
  doc comment starting with `Modelled from the spec:`.
-/

namespace Folio

/-! ## Basic string utilities shared by the embedding -/

/-- Roman-numeral characters accepted in a chapter ordinal ("BAB I", "BAB IV", ...). -/
def isRomanChar (c : Char) : Bool :=
  c == 'I' || c == 'V' || c == 'X' || c == 'L' || c == 'C' || c == 'D' || c == 'M'

/-- Boolean infix test on character lists. -/
def infixOfCL : List Char → List Char → Bool
  | n, [] => n.isEmpty
  | n, c :: cs => n.isPrefixOf (c :: cs) || infixOfCL n cs

/-- Character-list lower-casing (the `String.toLower` the kernel can evaluate). -/
def lowerCL (cs : List Char) : List Char := cs.map Char.toLower

/-- String lower-casing through character lists. -/
def strLower (s : String) : String := String.mk (lowerCL s.toList)

/-- String suffix test through character lists (`String.endsWith`). -/
def strEndsWith (s suf : String) : Bool := List.isSuffixOf suf.toList s.toList

/-- String prefix test through character lists (`String.startsWith`). -/
def strStartsWith (s pre2 : String) : Bool := List.isPrefixOf pre2.toList s.toList

/-- Split a character list at every occurrence of a separator character
(`String.splitOn` for a one-character separator). -/
def splitOnChar (sep : Char) : List Char → List (List Char)
  | [] => [[]]
  | c :: cs =>
    match splitOnChar sep cs with
    | [] => [[]]
    | g :: gs => if c == sep then [] :: g :: gs else (c :: g) :: gs

/-- Case-insensitive substring containment test (`needle` occurs in `hay`). -/
def containsCI (hay needle : String) : Bool :=
  infixOfCL (lowerCL needle.toList) (lowerCL hay.toList)

/-- Case-insensitive prefix stripping on character lists: if the pattern is a
case-insensitive prefix of the string, return the remainder. -/
def stripCasePrefixOf : List Char → List Char → Option (List Char)
  | [], s => some s
  | _ :: _, [] => none
  | p :: ps, c :: cs => if p.toLower == c.toLower then stripCasePrefixOf ps cs else none

/-- Fuel-indexed worker for case-insensitive replacement of every occurrence of a
pattern.  Fuel equal to the string length is always sufficient because each
step consumes at least one character. -/
def ciReplaceAux (pat repl : List Char) : Nat → List Char → List Char
  | _, [] => []
  | 0, s => s
  | fuel + 1, c :: cs =>
    match stripCasePrefixOf pat (c :: cs) with
    | some rest => repl ++ ciReplaceAux pat repl fuel rest
    | none => c :: ciReplaceAux pat repl fuel cs

/-- Case-insensitive replacement of every occurrence of `pat` in `s` by `repl`
(the merge executor's placeholder substitution uses case-insensitive matching). -/
def ciReplace (s pat repl : String) : String :=
  if pat.toList.isEmpty then s
  else String.mk (ciReplaceAux pat.toList repl.toList s.toList.length s.toList)

/-! ## Frontend API layer (embedded from `src/form-memory/frontend/src/lib/api.ts`
and `src/unnamed/part_002`) -/

/-- JavaScript `a || b` on an optional string field: `undefined` and the empty
string are falsy and select the default. -/
def jsOr (v : Option String) (d : String) : String :=
  match v with
  | some s => if s = "" then d else s
  | none => d

/-- JavaScript `a || b` on an optional numeric field: `undefined` and `0` are
falsy and select the default (models `axiosError.response?.status || 500`). -/
def jsOrNum (v : Option Nat) (d : Nat) : Nat :=
  match v with
  | some 0 => d
  | some n => n
  | none => d

/-- JavaScript `String(b)` on a boolean. -/
def jsBoolString (b : Bool) : String := if b then "true" else "false"

/-- The `ApiError` object shape thrown by the frontend API layer
(`api.ts`, `interface ApiError`). -/
structure ApiErrorModel where
  status : Nat
  message : String
  detail : Option String
deriving DecidableEq, Repr

/-- The observable part of an `AxiosError` that the catch blocks in `api.ts`
read: optional response status, optional response status text, and the Axios
message string. -/
structure AxiosErrorModel where
  responseStatus : Option Nat
  responseStatusText : Option String
  message : String
deriving DecidableEq, Repr

/-- The name and byte size of a `File` object, the only attributes the
frontend validation reads. -/
structure FileInfo where
  name : String
  size : Nat
deriving DecidableEq, Repr

/-- `uploadTemplate` from `api.ts` (lines 184-209): purely local validation of
a template file, with no network request.  A name not ending in `.docx` or a
size above 50 MiB is rejected with a 400 `ApiError`; otherwise the function
resolves with the file's own name as `reference_docx`. -/
def uploadTemplate (f : FileInfo) : Except ApiErrorModel (String × String) :=
  if !(strEndsWith f.name ".docx") then
    Except.error ⟨400, "Invalid template file", some "Template must be a .docx file"⟩
  else if f.size > 50 * 1024 * 1024 then
    Except.error ⟨400, "Template file too large", some "Template must be less than 50MB"⟩
  else
    Except.ok (f.name, "Template validated - ready to use")

/-- The `FrontmatterData` interface of `api.ts`: every field optional; the
`tahun` (year) field is modelled as its `String(...)` rendering. -/
structure FrontmatterData where
  judul : Option String
  penulis : Option String
  nim : Option String
  universitas : Option String
  tahun : Option String
  abstrak_id : Option String
  abstrak_teks : Option String
  abstrak_en_teks : Option String
  kata_kunci : Option String
deriving DecidableEq, Repr

/-- The multipart form body built by `enforceDocument` (`api.ts` lines
101-114): the file, the flag, and then always all nine front-matter fields,
each defaulted when missing or empty.  `currentYear` stands for
`String(new Date().getFullYear())`. -/
def enforceDocumentForm (fileName : String) (includeFrontmatter : Bool)
    (fd : Option FrontmatterData) (currentYear : String) : List (String × String) :=
  [("file", fileName),
   ("include_frontmatter", jsBoolString includeFrontmatter),
   ("judul", jsOr (fd.bind FrontmatterData.judul) "JUDUL SKRIPSI"),
   ("penulis", jsOr (fd.bind FrontmatterData.penulis) "Nama Penulis"),
   ("nim", jsOr (fd.bind FrontmatterData.nim) "NIM"),
   ("universitas", jsOr (fd.bind FrontmatterData.universitas) "Universitas"),
   ("tahun", jsOr (fd.bind FrontmatterData.tahun) currentYear),
   ("abstrak_id", jsOr (fd.bind FrontmatterData.abstrak_id) "ABSTRAK"),
   ("abstrak_teks", jsOr (fd.bind FrontmatterData.abstrak_teks) "Isi abstrak di sini."),
   ("abstrak_en_teks", jsOr (fd.bind FrontmatterData.abstrak_en_teks) "Abstract content here."),
   ("kata_kunci", jsOr (fd.bind FrontmatterData.kata_kunci) "keyword1, keyword2")]

/-- The multipart form body built by `generateFromText` (`api.ts` lines
227-256): template part (file, else reference, else a thrown `Error`), the
content file, format and flag, and the nine front-matter fields only when
`includeFrontmatter` is true and `frontmatterData` was provided.  Inside that
block every field falls back to the empty string except `abstrak_id`, which
falls back to `"ABSTRAK"`. -/
def generateFromTextForm (templateFileName : Option String) (templateReference : Option String)
    (contentFileName : String) (outputFormat : String) (includeFrontmatter : Bool)
    (fd : Option FrontmatterData) : Except String (List (String × String)) :=
  match templateFileName, templateReference with
  | none, none => Except.error "Either templateFile or templateReference must be provided"
  | tf, tr =>
    let templatePart :=
      match tf with
      | some name => [("template_file", name)]
      | none => [("reference_name", tr.getD "")]
    let base := templatePart ++
      [("content_file", contentFileName),
       ("output_format", outputFormat),
       ("include_frontmatter", jsBoolString includeFrontmatter)]
    let fmPart :=
      match includeFrontmatter, fd with
      | true, some d =>
        [("judul", jsOr d.judul ""),
         ("penulis", jsOr d.penulis ""),
         ("nim", jsOr d.nim ""),
         ("universitas", jsOr d.universitas ""),
         ("tahun", jsOr d.tahun ""),
         ("abstrak_id", jsOr d.abstrak_id "ABSTRAK"),
         ("abstrak_teks", jsOr d.abstrak_teks ""),
         ("abstrak_en_teks", jsOr d.abstrak_en_teks ""),
         ("kata_kunci", jsOr d.kata_kunci "")]
      | _, _ => []
    Except.ok (base ++ fmPart)

/-- The catch block of `generateFromText` (`api.ts` lines 284-292): every
error is replaced by an `ApiError` with the fixed message
`"Failed to generate formatted document"`, the HTTP status (500 when absent
or zero) and `statusText || message` as detail. -/
def generateFromTextCatch (e : AxiosErrorModel) : ApiErrorModel :=
  { status := jsOrNum e.responseStatus 500,
    message := "Failed to generate formatted document",
    detail := some (jsOr e.responseStatusText e.message) }

/-- The catch block of `formatThesis` (`src/unnamed/part_002` lines 569-578):
every error is replaced by an `ApiError` with the fixed message
`"Failed to format thesis"`. -/
def formatThesisCatch (e : AxiosErrorModel) : ApiErrorModel :=
  { status := jsOrNum e.responseStatus 500,
    message := "Failed to format thesis",
    detail := some (jsOr e.responseStatusText e.message) }

/-- JavaScript `String.prototype.replace` with a string pattern replaces only
the first occurrence; worker on character lists. -/
def replaceFirstAux (pat repl : List Char) : List Char → List Char
  | [] => []
  | c :: cs =>
    if pat.isPrefixOf (c :: cs) then repl ++ (c :: cs).drop pat.length
    else c :: replaceFirstAux pat repl cs

/-- JavaScript `s.replace(pat, repl)` with a string pattern: first occurrence
only; an empty pattern prepends the replacement. -/
def jsReplaceFirst (s pat repl : String) : String :=
  if pat.toList.isEmpty then repl ++ s
  else String.mk (replaceFirstAux pat.toList repl.toList s.toList)

/-- Filename chosen by `enforceDocument` (`api.ts` lines 127-136):
the content-disposition filename when the response carries one, otherwise the
uploaded file's name with its first `".docx"` replaced by `"_enforced.docx"`. -/
def enforceDocumentFilename (dispositionFilename : Option String) (fileName : String) : String :=
  match dispositionFilename with
  | some f => f
  | none => jsReplaceFirst fileName ".docx" "_enforced.docx"

/-- Filename chosen by `generateFromText` (`api.ts` lines 269-278):
the content-disposition filename when the response carries one, otherwise
`"formatted."` followed by the lower-cased output format. -/
def generateFromTextFilename (dispositionFilename : Option String) (outputFormat : String) : String :=
  match dispositionFilename with
  | some f => f
  | none => "formatted." ++ strLower outputFormat

/-- The response shape of the AI-availability query in `src/unnamed/part_002`. -/
structure AIAnalysisStatus where
  ai_available : Bool
  semantic_parser_available : Bool
  capabilities : List String
  error : Option String
deriving DecidableEq, Repr

/-- `getAIAnalysisStatus` (`src/unnamed/part_002` lines 656-674): a failed
request is not re-thrown; the catch block returns a result object with
`ai_available = false` and the Axios message recorded in `error`. -/
def getAIAnalysisStatus (resp : Except AxiosErrorModel AIAnalysisStatus) : AIAnalysisStatus :=
  match resp with
  | Except.ok d => d
  | Except.error e => ⟨false, false, [], some e.message⟩

/-! ## Core pipeline data model.

The backend pipeline sources (`skripsi_enforcer.py`, `engine/analyzer.py`)
are not in the repository snapshot; everything below is modelled from the
specification (`spec.md` sections 3, 4, 6, 7). -/

/-- Modelled from the spec: the error taxonomy of section 7 — each fatal kind
carries its cause string; the constructor is the originating phase. -/
inductive PipelineError
  | templateParse (cause : String)
  | contentParse (cause : String)
  | mapping (cause : String)
  | mergeFailure (cause : String)
deriving DecidableEq, Repr

/-- Modelled from the spec: the node-kind vocabulary of `SectionNode` (section 3). -/
inductive SKind
  | chapter
  | subchapter
  | subsubchapter
  | paragraph
  | listItem
  | tableCaption
  | figureCaption
  | equation
  | bibliographyEntry
  | appendix
deriving DecidableEq, Repr

/-- Chapter/subchapter/sub-subchapter are the heading kinds; the rest are content. -/
def isHeadingKind (k : SKind) : Bool :=
  k == SKind.chapter || k == SKind.subchapter || k == SKind.subsubchapter

/-- Modelled from the spec: a `SectionNode` — title, level (0 = top),
ordered paragraph texts, kind, and a confidence score (in percent). -/
structure SectionNode where
  title : String
  level : Nat
  paragraphs : List String
  kind : SKind
  confidence : Nat
deriving DecidableEq, Repr

/-- Modelled from the spec: a `SectionTree` — flat arena of nodes in document
order plus parse-level warnings. -/
structure SectionTree where
  nodes : List SectionNode
  warnings : List String
deriving DecidableEq, Repr

/-- Modelled from the spec: per-style attributes in the `styleCatalog`. -/
structure StyleAttrs where
  font : String
  size : Nat
  lineSpacing : Nat
  indent : Nat
  alignment : String
deriving DecidableEq, Repr

/-- Modelled from the spec: the four page margins of a template. -/
structure Margins where
  top : Nat
  bottom : Nat
  left : Nat
  right : Nat
deriving DecidableEq, Repr

/-- Modelled from the spec: `TemplateProfile` (section 3), derived once per
template by the profiler. -/
structure TemplateProfile where
  margins : Margins
  styleCatalog : List (String × StyleAttrs)
  headingChain : List String
  placeholderPatterns : List String
  requiredFrontMatter : List String
deriving DecidableEq, Repr

/-- Modelled from the spec: the input to the profiler — a structured-document
container read through the style-primitive adapter: readability, margins,
named style definitions, and paragraphs as (style name, text) pairs. -/
structure TemplateDoc where
  readable : Bool
  margins : Margins
  styles : List (String × StyleAttrs)
  paragraphs : List (String × String)
deriving DecidableEq, Repr

/-- Modelled from the spec: availability of an external collaborator call
(section 6): reachable, unreachable, or timed out. -/
inductive CollabStatus
  | available
  | unreachable
  | timedOut
deriving DecidableEq, Repr

/-- Modelled from the spec: the explicit immutable configuration object of
section 9 — collaborator availability, whether a synthesis collaborator is
configured at all, the call timeout, and the low-confidence threshold. -/
structure PipelineConfig where
  classifier : CollabStatus
  synthesizer : CollabStatus
  synthConfigured : Bool
  timeoutMs : Nat
  lowConfidenceThreshold : Nat
deriving DecidableEq, Repr

/-! ## Template Profiler (spec section 4.1) -/

/-- Modelled from the spec: the heading chain is identified by style-name
convention (`Heading 1`, `Heading 2`, ...) ordered by outline depth. -/
def headingChainOf (d : TemplateDoc) : List String :=
  (List.range 9).filterMap (fun i =>
    let nm := "Heading " ++ toString (i + 1)
    if d.styles.any (fun s => s.1 == nm) then some nm else none)

/-- Modelled from the spec: the fixed vocabulary of literal placeholder phrases. -/
def literalPlaceholders : List String :=
  ["TULIS JUDUL", "NAMA MAHASISWA", "DOSEN PEMBIMBING", "TANGGAL"]

/-- Fuel-indexed scan for bracketed placeholder tokens (`[NAME]`) in one text. -/
def bracketTokensAux : Nat → List Char → List String
  | 0, _ => []
  | _, [] => []
  | fuel + 1, c :: cs =>
    if c == '[' then
      let tok := cs.takeWhile (fun x => x ≠ ']')
      let rest := (cs.dropWhile (fun x => x ≠ ']')).drop 1
      ("[" ++ String.mk tok ++ "]") :: bracketTokensAux fuel rest
    else bracketTokensAux fuel cs

/-- Modelled from the spec: scan all paragraph text for bracket tokens and for
the fixed vocabulary of literal placeholder phrases. -/
def placeholdersOf (d : TemplateDoc) : List String :=
  literalPlaceholders.filter (fun lit => d.paragraphs.any (fun pr => containsCI pr.2 lit)) ++
  (d.paragraphs.map (fun pr => bracketTokensAux pr.2.toList.length pr.2.toList)).flatten

/-- Modelled from the spec: the fixed vocabulary of front-matter category
identifiers a template can structurally expect. -/
def fmVocab : List String :=
  ["cover", "approval", "abstract", "table of contents", "preface"]

/-- Worker collecting required front-matter categories in the order their
section titles are first encountered in the template, without duplicates. -/
def collectFMAux : List String → List String → List String
  | [], acc => acc
  | txt :: rest, acc =>
    collectFMAux rest (acc ++ fmVocab.filter (fun c => containsCI txt c && !acc.contains c))

/-- Modelled from the spec: compare discovered section titles against the
fixed front-matter vocabulary (normalized, case-insensitive containment) to
populate `requiredFrontMatter`, preserving the order encountered. -/
def collectFM (texts : List String) : List String := collectFMAux texts []

/-- Modelled from the spec: `profile(template)` (section 4.1 and section 6).
Fails with `TemplateParseError` when the document cannot be opened or when no
heading styles are discoverable; never guesses a heading chain. -/
def profile (d : TemplateDoc) : Except PipelineError TemplateProfile :=
  if !d.readable then
    Except.error (PipelineError.templateParse "document cannot be opened")
  else
    let chain := headingChainOf d
    if chain.isEmpty then
      Except.error (PipelineError.templateParse "no heading styles discoverable")
    else
      Except.ok
        { margins := d.margins
          styleCatalog := d.styles
          headingChain := chain
          placeholderPatterns := placeholdersOf d
          requiredFrontMatter := collectFM (d.paragraphs.map Prod.snd) }

/-! ## Content Sectioner (spec section 4.2, pattern strategy) -/

/-- Modelled from the spec: a line that is exactly a chapter marker — the
marker token `"BAB"` followed by a Roman or Arabic ordinal and nothing else. -/
def isBareChapterMarker (l : String) : Bool :=
  strStartsWith l "BAB " &&
    (let ord := l.toList.drop 4
     !ord.isEmpty && ord.all (fun c => c.isDigit || isRomanChar c))

/-- Modelled from the spec: a line that opens with a chapter marker (marker
token plus ordinal), possibly followed by the chapter title on the same line. -/
def isChapterLine (l : String) : Bool :=
  strStartsWith l "BAB " &&
    (let ord := (l.toList.drop 4).takeWhile (fun c => c ≠ ' ')
     !ord.isEmpty && ord.all (fun c => c.isDigit || isRomanChar c))

/-- Leading dotted-number components of a line (`"1.2 Title"` gives
`["1", "2"]` candidates before the digit check). -/
def numComponents (l : String) : List (List Char) :=
  let w := l.toList.takeWhile (fun c => c ≠ ' ')
  let w := if w.getLast? == some '.' then w.dropLast else w
  splitOnChar '.' w

/-- Modelled from the spec: a multi-level numbered heading `N`, `N.N`, `N.N.N`, ... -/
def isNumberedHeading (l : String) : Bool :=
  let parts := numComponents l
  !parts.isEmpty && parts.all (fun p => !p.isEmpty && p.all Char.isDigit)

/-- A line the pattern strategy recognizes as a heading. -/
def isHeadingLine (l : String) : Bool := isChapterLine l || isNumberedHeading l

/-- Heading depth of a heading line: chapter markers are depth 0; a numbered
heading's depth is its component count minus one (`"1.1"` is depth 1). -/
def headingLevel (l : String) : Nat :=
  if isChapterLine l then 0 else (numComponents l).length - 1

/-- Node kind assigned to a heading of a given depth. -/
def kindForLevel (lvl : Nat) : SKind :=
  if lvl == 0 then SKind.chapter
  else if lvl == 1 then SKind.subchapter
  else SKind.subsubchapter

/-- Modelled from the spec: the pre-merge pass — a line that is exactly a
chapter marker followed immediately by a non-empty line becomes one logical
line carrying marker and title together (the forced line break between them
is materialized by the merge executor's heading-merge sub-phase). -/
def mergeChapterLines : List String → List String
  | [] => []
  | [l] => [l]
  | l :: l2 :: rest =>
    if isBareChapterMarker l && l2 != "" then
      (l ++ " " ++ l2) :: mergeChapterLines rest
    else
      l :: mergeChapterLines (l2 :: rest)

/-- Worker for `parseLines`: fuel equal to the line count is always enough
because each step consumes at least the leading line. -/
def parseLinesAux : Nat → List String → List SectionNode
  | _, [] => []
  | 0, _ => []
  | fuel + 1, l :: ls =>
    let body := ls.takeWhile (fun x => !isHeadingLine x)
    let rest := ls.dropWhile (fun x => !isHeadingLine x)
    if isHeadingLine l then
      let lvl := headingLevel l
      { title := l, level := lvl, paragraphs := body, kind := kindForLevel lvl,
        confidence := 90 } :: parseLinesAux fuel rest
    else
      { title := l, level := 0, paragraphs := body, kind := SKind.paragraph,
        confidence := 40 } :: parseLinesAux fuel rest

/-- Modelled from the spec: build the flat node arena — each heading line
starts a node that absorbs the following non-heading lines as its paragraphs;
leading non-heading text is retained as a `paragraph` node with low
confidence. -/
def parseLines (lines : List String) : List SectionNode :=
  parseLinesAux lines.length lines

/-- Modelled from the spec: ambiguous classifications below the fixed
threshold are recorded as tree-level warnings but do not abort parsing. -/
def lowConfidenceWarnings (nodes : List SectionNode) : List String :=
  nodes.filterMap (fun n =>
    if n.confidence < 60 then some ("low-confidence classification: " ++ n.title) else none)

/-- Modelled from the spec: `section(content)` for plain pattern-bearing text —
split into lines, pre-merge chapter markers with their title lines, drop blank
lines, and build the flat section arena. -/
def sectionContent (content : String) : SectionTree :=
  let lines := mergeChapterLines ((splitOnChar '\n' content.toList).map String.mk)
  let nodes := parseLines (lines.filter (fun l => l != ""))
  { nodes := nodes, warnings := lowConfidenceWarnings nodes }

/-! ## Content Mapper (spec section 4.3) -/

/-- Modelled from the spec: a target slot of a section binding — a sequential
chapter ordinal or a front-matter category. -/
inductive Slot
  | chapterSlot (ordinal : Nat)
  | fmSlot (category : String)
deriving DecidableEq, Repr

/-- Modelled from the spec: one `sectionBindings` entry — a node reference
(arena index), its target slot, and the target style name. -/
structure Binding where
  nodeIdx : Nat
  slot : Slot
  style : String
deriving DecidableEq, Repr

/-- Modelled from the spec: the tag of an unmatched required category —
synthesize filler text or insert an empty shell. -/
inductive FMTag
  | synthesize
  | blank
deriving DecidableEq, Repr

/-- Modelled from the spec: `ActionPlan` (section 3), output of reconciliation. -/
structure ActionPlan where
  placeholderBindings : List (String × String)
  sectionBindings : List Binding
  missingCategories : List (String × FMTag)
  warnings : List String
deriving DecidableEq, Repr

/-- Modelled from the spec: user-supplied metadata fields available to the
mapper's fixed name-matching table and to front-matter assembly. -/
structure UserMeta where
  title : Option String
  author : Option String
  identifier : Option String
  advisor : Option String
  institution : Option String
  date : Option String
  abstract : Option String
deriving DecidableEq, Repr

/-- Modelled from the spec: the fixed name-matching table binding a
placeholder pattern to a metadata field (title, author, identifier, advisor,
institution, date). -/
def metaFieldFor (meta : UserMeta) (pat : String) : Option String :=
  if containsCI pat "title" || containsCI pat "judul" then meta.title
  else if containsCI pat "author" || containsCI pat "mahasiswa" then meta.author
  else if containsCI pat "nim" then meta.identifier
  else if containsCI pat "advisor" || containsCI pat "pembimbing" then meta.advisor
  else if containsCI pat "institution" || containsCI pat "universitas" then meta.institution
  else if containsCI pat "date" || containsCI pat "tanggal" then meta.date
  else none

/-- Modelled from the spec: a non-chapter top-level node provides a required
front-matter category when its title fuzzily (case-insensitive containment)
matches the category name. -/
def fmMatches (c : String) (n : SectionNode) : Bool :=
  n.level == 0 && n.kind != SKind.chapter && containsCI n.title c

/-- The tree provides content for a required category. -/
def providesCat (t : SectionTree) (c : String) : Bool :=
  t.nodes.any (fmMatches c)

/-- Modelled from the spec: categories that support synthesis are abstract
and preface; a category is tagged `synthesize` only when a synthesis
collaborator is configured. -/
def fmTag (cfg : PipelineConfig) (c : String) : FMTag :=
  if (c == "abstract" || c == "preface") && cfg.synthConfigured then FMTag.synthesize
  else FMTag.blank

/-- The mapper delegates to the semantic classifier only when some top-level
non-chapter node sits below the confidence threshold. -/
def hasLowConfidence (t : SectionTree) (cfg : PipelineConfig) : Bool :=
  t.nodes.any (fun n =>
    n.level == 0 && n.kind != SKind.chapter && n.confidence < cfg.lowConfidenceThreshold)

/-- Style assigned to bound front-matter sections. -/
def fmStyleOf (p : TemplateProfile) : String := p.headingChain.headD "Heading 1"

/-- Modelled from the spec: `plan(profile, tree)` (sections 4.3 and 6, with
the explicit metadata and configuration objects of section 9).  Fails with
`MappingError` when the template demands heading depths the content cannot
express; otherwise binds placeholders by the name table, chapter nodes in
encountered order to sequential chapter slots, required front-matter
categories to the first providing node, and places the unprovided required
categories into `missingCategories`.  Collaborator unavailability is recorded
as a warning, never as an error (section 7). -/
def plan (p : TemplateProfile) (t : SectionTree) (meta : UserMeta) (cfg : PipelineConfig) :
    Except PipelineError ActionPlan :=
  if 3 ≤ p.headingChain.length && t.nodes.all (fun n => !isHeadingKind n.kind) then
    Except.error (PipelineError.mapping
      "template requires heading depths the content format cannot express")
  else
    Except.ok
      { placeholderBindings :=
          p.placeholderPatterns.filterMap (fun pat =>
            (metaFieldFor meta pat).map (fun v => (pat, v)))
        sectionBindings :=
          ((t.nodes.enum.filter (fun x => x.2.kind == SKind.chapter)).enum.map
            (fun x => ⟨x.2.1, Slot.chapterSlot x.1, p.headingChain.headD ""⟩)) ++
          ((p.requiredFrontMatter.filter (fun c => providesCat t c)).map
            (fun c => ⟨t.nodes.findIdx (fmMatches c), Slot.fmSlot c, fmStyleOf p⟩))
        missingCategories :=
          (p.requiredFrontMatter.filter (fun c => !providesCat t c)).map
            (fun c => (c, fmTag cfg c))
        warnings :=
          (p.placeholderPatterns.filter (fun pat => (metaFieldFor meta pat).isNone)).map
            (fun pat => "unbound placeholder: " ++ pat) ++
          (if hasLowConfidence t cfg && cfg.classifier != CollabStatus.available then
            ["semantic classifier unavailable; keeping rule-based classification"]
          else []) }

/-! ## Merge Executor (spec section 4.4) -/

/-- Modelled from the spec: one paragraph of the working copy, as seen through
the style-primitive adapter — style name, text, originating node kind and
level, and whether a forced page break precedes it. -/
structure DocPara where
  style : String
  text : String
  kind : SKind
  level : Nat
  pageBreakBefore : Bool
deriving DecidableEq, Repr

/-- Modelled from the spec: `MergeResult` — counts per sub-phase, warnings,
completion timestamp; immutable once produced. -/
structure MergeResult where
  substitutions : Nat
  headingMerges : Nat
  paragraphsStyled : Nat
  headingsStyled : Nat
  tocRebuilt : Bool
  pageBreaksInserted : Nat
  numberingReset : Bool
  frontMatterInserted : Nat
  warnings : List String
  timestamp : Nat
deriving DecidableEq, Repr

/-- A node claimed by some required front-matter category (it is assembled in
the front-matter block, not in the chapter body). -/
def isFMBound (p : TemplateProfile) (n : SectionNode) : Bool :=
  p.requiredFrontMatter.any (fun c => fmMatches c n)

/-- Working-copy paragraphs contributed by one section node: a heading
paragraph followed by its body paragraphs. -/
def nodeParas (n : SectionNode) : List DocPara :=
  ⟨"Normal", n.title, n.kind, n.level, false⟩ ::
    n.paragraphs.map (fun txt => ⟨"Normal", txt, SKind.paragraph, n.level + 1, false⟩)

/-- Working-copy paragraphs of a node list, in order. -/
def parasOfNodes : List SectionNode → List DocPara
  | [] => []
  | n :: ns => nodeParas n ++ parasOfNodes ns

/-- The chapter-body part of the working copy: every node not claimed by a
front-matter category. -/
def bodyDoc (p : TemplateProfile) (t : SectionTree) : List DocPara :=
  parasOfNodes (t.nodes.filter (fun n => !isFMBound p n))

/-- Sub-phase 1, placeholder substitution on one paragraph: every bound
placeholder token is replaced in place, case-insensitively. -/
def substPara (binds : List (String × String)) (q : DocPara) : DocPara :=
  { q with text := binds.foldl (fun s pr => ciReplace s pr.1 pr.2) q.text }

/-- Sub-phase 1 over the document, counting the paragraphs whose text changed. -/
def phaseSubst (binds : List (String × String)) (doc : List DocPara) :
    List DocPara × Nat :=
  (doc.map (substPara binds), doc.countP (fun q => decide (substPara binds q ≠ q)))

/-- Sub-phase 2 guard: a bare chapter-marker paragraph followed by a non-empty
non-chapter paragraph still carried separately by the template skeleton. -/
def mergeablePair (q q2 : DocPara) : Bool :=
  q.kind == SKind.chapter && isBareChapterMarker q.text &&
  q2.kind != SKind.chapter && q2.text != ""

/-- Sub-phase 2, heading+title merge: the pair becomes one paragraph joined by
a forced line break, adopting the first paragraph's style. -/
def mergeAdj : List DocPara → List DocPara
  | [] => []
  | [q] => [q]
  | q :: q2 :: rest =>
    if mergeablePair q q2 then
      { q with text := q.text ++ "\n" ++ q2.text } :: mergeAdj rest
    else
      q :: mergeAdj (q2 :: rest)

/-- Number of merges performed by sub-phase 2. -/
def countMerges : List DocPara → Nat
  | [] => 0
  | [_] => 0
  | q :: q2 :: rest =>
    if mergeablePair q q2 then countMerges rest + 1
    else countMerges (q2 :: rest)

/-- The template's canonical body style: the first catalog style that is not
part of the heading chain. -/
def bodyStyleOf (p : TemplateProfile) : String :=
  (((p.styleCatalog.map Prod.fst).filter (fun s => !p.headingChain.contains s)).headD "Normal")

/-- Sub-phase 3, paragraph style enforcement on one paragraph. -/
def paraStylePara (p : TemplateProfile) (q : DocPara) : DocPara :=
  if q.kind == SKind.paragraph then { q with style := bodyStyleOf p } else q

/-- Sub-phase 3 over the document, counting enforced paragraphs. -/
def phaseParaStyle (p : TemplateProfile) (doc : List DocPara) : List DocPara × Nat :=
  (doc.map (paraStylePara p), doc.countP (fun q => q.kind == SKind.paragraph))

/-- Sub-phase 4, heading discipline on one paragraph: heading nodes get
`headingChain[level]`, with levels beyond the chain demoted to the deepest
available style. -/
def headingStylePara (p : TemplateProfile) (q : DocPara) : DocPara :=
  if isHeadingKind q.kind then
    { q with style := p.headingChain.getD (min q.level (p.headingChain.length - 1)) "Heading 1" }
  else q

/-- Warning emitted when a heading level exceeds the chain and is demoted. -/
def demotionWarnings (p : TemplateProfile) (doc : List DocPara) : List String :=
  doc.filterMap (fun q =>
    if isHeadingKind q.kind && p.headingChain.length ≤ q.level then
      some ("heading level demoted to deepest available style: " ++ q.text)
    else none)

/-- Sub-phase 4 over the document, counting styled headings. -/
def phaseHeadingStyle (p : TemplateProfile) (doc : List DocPara) : List DocPara × Nat :=
  (doc.map (headingStylePara p), doc.countP (fun q => isHeadingKind q.kind))

/-- Static table-of-contents content (non-chapter body text of an existing
table of contents) that sub-phase 5 removes. -/
def isStaticTocPara (q : DocPara) : Bool :=
  q.kind != SKind.chapter && containsCI q.text "DAFTAR ISI"

/-- The live auto-updating reference field inserted by sub-phase 5, scoped to
heading levels 0 and 1 only. -/
def tocFieldPara : DocPara :=
  ⟨"TOCField", "TOC \\o 1-2", SKind.paragraph, 0, false⟩

/-- Sub-phase 5, table-of-contents rebuild: any static table-of-contents
content is removed and a live reference field takes its place. -/
def phaseToc (doc : List DocPara) : List DocPara :=
  tocFieldPara :: doc.filter (fun q => !isStaticTocPara q)

/-- Sub-phase 6, page-break enforcement: a forced page break before every
chapter paragraph except the first (`seen` records whether a chapter has been
passed). -/
def markBreaks (seen : Bool) : List DocPara → List DocPara
  | [] => []
  | q :: qs =>
    if q.kind == SKind.chapter then
      (if seen then { q with pageBreakBefore := true } else q) :: markBreaks true qs
    else
      q :: markBreaks seen qs

/-- Number of page breaks inserted by sub-phase 6. -/
def countBreaks (seen : Bool) : List DocPara → Nat
  | [] => 0
  | q :: qs =>
    if q.kind == SKind.chapter then
      (if seen then 1 else 0) + countBreaks true qs
    else countBreaks seen qs

/-- Front-matter content a category can take directly from user metadata. -/
def metaSupplies (meta : UserMeta) (c : String) : Option String :=
  if c == "abstract" then meta.abstract else none

/-- Modelled from the spec: front-matter paragraphs assembled for one required
category — the providing node's content when one exists, else the
metadata-supplied text, else synthesized filler (bounded by a timeout, hence
represented by the collaborator's response value `synthResp`, `none` when the
collaborator is unavailable or timed out), else an empty templated shell with
placeholder text. -/
def fmParasDoc (t : SectionTree) (meta : UserMeta) (a : ActionPlan)
    (synthResp : Option (List (String × String))) (c : String) : List DocPara :=
  match t.nodes.find? (fmMatches c) with
  | some n =>
    ⟨"FrontMatter", n.title, SKind.paragraph, 0, false⟩ ::
      n.paragraphs.map (fun s => ⟨"FrontMatter", s, SKind.paragraph, 0, false⟩)
  | none =>
    match metaSupplies meta c with
    | some s => [⟨"FrontMatter", s, SKind.paragraph, 0, false⟩]
    | none =>
      match (a.missingCategories.lookup c).getD FMTag.blank with
      | FMTag.synthesize =>
        match synthResp.bind (fun m => m.lookup c) with
        | some txt => [⟨"FrontMatter", txt, SKind.paragraph, 0, false⟩]
        | none => [⟨"FrontMatter", "[" ++ c ++ "]", SKind.paragraph, 0, false⟩]
      | FMTag.blank => [⟨"FrontMatter", "[" ++ c ++ "]", SKind.paragraph, 0, false⟩]

/-- Warnings raised while assembling one category: collaborator unavailability
during synthesis is downgraded to a warning, never an error. -/
def fmParasWarn (t : SectionTree) (meta : UserMeta) (a : ActionPlan)
    (synthResp : Option (List (String × String))) (c : String) : List String :=
  match t.nodes.find? (fmMatches c) with
  | some _ => []
  | none =>
    match metaSupplies meta c with
    | some _ => []
    | none =>
      match (a.missingCategories.lookup c).getD FMTag.blank with
      | FMTag.synthesize =>
        match synthResp.bind (fun m => m.lookup c) with
        | some _ => []
        | none => ["synthesis collaborator unavailable; inserted blank shell for " ++ c]
      | FMTag.blank => []

/-- Sub-phase 7 document block: front matter assembled in the order dictated
by `requiredFrontMatter`. -/
def fmDocs (t : SectionTree) (meta : UserMeta) (a : ActionPlan)
    (synthResp : Option (List (String × String))) : List String → List DocPara
  | [] => []
  | c :: cs => fmParasDoc t meta a synthResp c ++ fmDocs t meta a synthResp cs

/-- Sub-phase 7 warnings, in category order. -/
def fmWarns (t : SectionTree) (meta : UserMeta) (a : ActionPlan)
    (synthResp : Option (List (String × String))) : List String → List String
  | [] => []
  | c :: cs => fmParasWarn t meta a synthResp c ++ fmWarns t meta a synthResp cs

/-- Modelled from the spec: the six ordered sub-phases of `merge` applied to
the working copy, producing the output paragraphs and all counters (the
completion timestamp is attached by `merge` itself). -/
def mergeCore (p : TemplateProfile) (t : SectionTree) (a : ActionPlan) (meta : UserMeta)
    (synthResp : Option (List (String × String))) : List DocPara × MergeResult :=
  let doc0 := bodyDoc p t
  let s1 := phaseSubst a.placeholderBindings doc0
  let doc2 := mergeAdj s1.1
  let s3 := phaseParaStyle p doc2
  let s4 := phaseHeadingStyle p s3.1
  let doc5 := phaseToc s4.1
  let doc6 := markBreaks false doc5
  let fmBlock := fmDocs t meta a synthResp p.requiredFrontMatter
  (fmBlock ++ doc6,
   { substitutions := s1.2
     headingMerges := countMerges s1.1
     paragraphsStyled := s3.2
     headingsStyled := s4.2
     tocRebuilt := true
     pageBreaksInserted := countBreaks false doc5
     numberingReset := doc5.any (fun q => q.kind == SKind.chapter)
     frontMatterInserted := p.requiredFrontMatter.length
     warnings := demotionWarnings p s3.1 ++ fmWarns t meta a synthResp p.requiredFrontMatter
     timestamp := 0 })

/-- Modelled from the spec: `merge(profile, tree, plan, userMetadata)`
(section 6), with the synthesis collaborator's response and the completion
timestamp as explicit inputs.  The timestamp is recorded in the `MergeResult`
only. -/
def merge (p : TemplateProfile) (t : SectionTree) (a : ActionPlan) (meta : UserMeta)
    (synthResp : Option (List (String × String))) (ts : Nat) :
    List DocPara × MergeResult :=
  let r := mergeCore p t a meta synthResp
  (r.1, { r.2 with timestamp := ts })

/-- Chapter-paragraph count of a working copy. -/
def countCh (doc : List DocPara) : Nat :=
  doc.countP (fun q => q.kind == SKind.chapter)

/-- Chapter-node count of a section tree. -/
def chapterCount (t : SectionTree) : Nat :=
  t.nodes.countP (fun n => n.kind == SKind.chapter)

/-- The chapter paragraphs of a working copy, in order. -/
def chaptersOf (doc : List DocPara) : List DocPara :=
  doc.filter (fun q => q.kind == SKind.chapter)

/-! ## Concrete fixtures used by the witness theorems -/

/-- Margins of the demonstration template. -/
def marginsDemo : Margins := ⟨4, 3, 4, 3⟩

/-- Style attributes of the demonstration template. -/
def attrsDemo : StyleAttrs := ⟨"Times New Roman", 12, 15, 1, "justify"⟩

/-- A small readable template with one heading style, an abstract section
title and two bracketed placeholders. -/
def dDemo : TemplateDoc :=
  ⟨true, marginsDemo, [("Heading 1", attrsDemo)],
   [("Heading 1", "ABSTRACT"), ("Normal", "[TITLE] by [AUTHOR]")]⟩

/-- The profile of `dDemo`. -/
def pDemo : TemplateProfile :=
  { margins := marginsDemo
    styleCatalog := [("Heading 1", attrsDemo)]
    headingChain := ["Heading 1"]
    placeholderPatterns := ["[TITLE]", "[AUTHOR]"]
    requiredFrontMatter := ["abstract"] }

/-- A readable template without any heading style. -/
def dNoHeadings : TemplateDoc := ⟨true, marginsDemo, [("Normal", attrsDemo)], []⟩

/-- A section tree with one chapter and one abstract-providing node. -/
def tDemo : SectionTree :=
  ⟨[⟨"BAB I PENDAHULUAN", 0, ["isi"], SKind.chapter, 90⟩,
    ⟨"ABSTRACT", 0, ["ringkasan"], SKind.paragraph, 80⟩], []⟩

/-- Demonstration user metadata. -/
def metaDemo : UserMeta :=
  ⟨some "Judul", some "Penulis", some "123", some "Dosen", some "Universitas Demo",
   some "2025", none⟩

/-- A configuration whose collaborators are unreachable. -/
def cfgDemo : PipelineConfig :=
  ⟨CollabStatus.unreachable, CollabStatus.unreachable, true, 30000, 60⟩

/-- A section tree with a single low-confidence non-chapter node. -/
def tLow : SectionTree := ⟨[⟨"catatan", 0, [], SKind.paragraph, 40⟩], []⟩

/-- The action plan produced for `pDemo` and `tDemo`. -/
def aDemo : ActionPlan :=
  { placeholderBindings := [("[TITLE]", "Judul"), ("[AUTHOR]", "Penulis")]
    sectionBindings :=
      [⟨0, Slot.chapterSlot 0, "Heading 1"⟩, ⟨1, Slot.fmSlot "abstract", "Heading 1"⟩]
    missingCategories := []
    warnings := [] }

/-- The action plan produced for `pDemo` and `tLow`. -/
def aLow : ActionPlan :=
  { placeholderBindings := [("[TITLE]", "Judul"), ("[AUTHOR]", "Penulis")]
    sectionBindings := []
    missingCategories := [("abstract", FMTag.synthesize)]
    warnings := ["semantic classifier unavailable; keeping rule-based classification"] }

/-- An action plan whose only entry is a synthesize-tagged abstract. -/
def aSynth : ActionPlan := ⟨[], [], [("abstract", FMTag.synthesize)], []⟩

/-- A section tree with exactly two chapters. -/
def tTwoCh : SectionTree :=
  ⟨[⟨"BAB I PENDAHULUAN", 0, ["latar belakang"], SKind.chapter, 90⟩,
    ⟨"1.1 Rumusan Masalah", 1, ["rumusan"], SKind.subchapter, 90⟩,
    ⟨"BAB II TINJAUAN PUSTAKA", 0, ["kajian"], SKind.chapter, 90⟩], []⟩

/-- The front-matter field keys of the frontend form bodies. -/
def fmFieldKeys : List String :=
  ["judul", "penulis", "nim", "universitas", "tahun", "abstrak_id",
   "abstrak_teks", "abstrak_en_teks", "kata_kunci"]

/-- Projection of a `FrontmatterData` field by form key. -/
def fmFieldOf (k : String) : FrontmatterData → Option String :=
  if k = "judul" then FrontmatterData.judul
  else if k = "penulis" then FrontmatterData.penulis
  else if k = "nim" then FrontmatterData.nim
  else if k = "universitas" then FrontmatterData.universitas
  else if k = "tahun" then FrontmatterData.tahun
  else if k = "abstrak_id" then FrontmatterData.abstrak_id
  else if k = "abstrak_teks" then FrontmatterData.abstrak_teks
  else if k = "abstrak_en_teks" then FrontmatterData.abstrak_en_teks
  else if k = "kata_kunci" then FrontmatterData.kata_kunci
  else fun _ => none

/-- The fixed default `enforceDocument` sends for a missing field. -/
def fmDefaultOf (currentYear k : String) : String :=
  if k = "judul" then "JUDUL SKRIPSI"
  else if k = "penulis" then "Nama Penulis"
  else if k = "nim" then "NIM"
  else if k = "universitas" then "Universitas"
  else if k = "tahun" then currentYear
  else if k = "abstrak_id" then "ABSTRAK"
  else if k = "abstrak_teks" then "Isi abstrak di sini."
  else if k = "abstrak_en_teks" then "Abstract content here."
  else if k = "kata_kunci" then "keyword1, keyword2"
  else ""

/-- The pattern has no occurrence in `s` starting before position `k`. -/
def noOccurrenceBefore (pat s : List Char) (k : Nat) : Prop :=
  ∀ i, i < k → ¬(pat.isPrefixOf (s.drop i) = true)

instance (pat s : List Char) (k : Nat) : Decidable (noOccurrenceBefore pat s k) := by
  unfold noOccurrenceBefore
  exact Nat.decidableBallLT k fun i _ => _

/-! ## Theorems for the claims -/

/-- C2: for every fixed profile, tree, plan and user metadata (including the
synthesis collaborator's response), running `merge` twice on identical inputs
yields an identical output document and an identical `MergeResult` apart from
the completion timestamp. -/
theorem merge_identical_up_to_timestamp (p : TemplateProfile) (t : SectionTree)
    (a : ActionPlan) (meta : UserMeta) (synthResp : Option (List (String × String)))
    (ts1 ts2 : Nat) :
    (merge p t a meta synthResp ts1).1 = (merge p t a meta synthResp ts2).1
    ∧ (merge p t a meta synthResp ts1).2
        = { (merge p t a meta synthResp ts2).2 with timestamp := ts1 } := by
  exact ⟨rfl, rfl⟩

/-- C4: a readable template in which no heading styles are discoverable makes
`profile` fail with a `TemplateParseError` rather than return a guessed
profile, and consequently the heading chain of every successfully returned
profile is non-empty. -/
theorem profile_heading_chain_nonempty :
    (∀ d : TemplateDoc, d.readable = true → headingChainOf d = [] →
        profile d = Except.error (PipelineError.templateParse "no heading styles discoverable"))
    ∧ (∀ (d : TemplateDoc) (pr : TemplateProfile),
        profile d = Except.ok pr → pr.headingChain ≠ []) := by
  constructor
  · intro d hr hc
    simp [profile, hr, hc]
  · intro d pr h
    unfold profile at h
    by_cases hr : d.readable
    · simp only [hr] at h
      by_cases hc : (headingChainOf d).isEmpty
      · simp [hc] at h
      · simp only [hc, Bool.false_eq_true, if_false, Bool.not_false, if_true] at h
        cases h
        simpa using hc
    · simp [hr] at h

/-- Witness for C4: a template with only a `Normal` style is rejected, and
the profile of the demonstration template has a non-empty heading chain. -/
theorem profile_heading_chain_nonempty_witness :
    profile dNoHeadings
        = Except.error (PipelineError.templateParse "no heading styles discoverable")
    ∧ pDemo.headingChain ≠ [] :=
  ⟨profile_heading_chain_nonempty.1 dNoHeadings (by decide) (by decide),
   profile_heading_chain_nonempty.2 dDemo pDemo (by rfl)⟩

/-- C7: a line that is exactly a chapter marker followed immediately by a
non-empty line is pre-merged into a single logical line, and on the content
`"BAB I\nPENDAHULUAN\n..."` the sectioner produces exactly one node, with
title `"BAB I PENDAHULUAN"`, level 0 and kind chapter — never two nodes. -/
theorem sectioner_chapter_marker_merge (m t2 : String) (rest : List String)
    (hm : isBareChapterMarker m = true) (ht : t2 ≠ "") :
    mergeChapterLines (m :: t2 :: rest) = (m ++ " " ++ t2) :: mergeChapterLines rest
    ∧ sectionContent "BAB I\nPENDAHULUAN\n..."
        = { nodes := [{ title := "BAB I PENDAHULUAN", level := 0, paragraphs := ["..."],
                        kind := SKind.chapter, confidence := 90 }],
            warnings := [] } := by
  constructor
  · have hb : (t2 != "") = true := by
      simp [bne, ht]
    simp [mergeChapterLines, hm, hb]
  · rfl

/-- Witness for C7: merging a second chapter marker with its title line, and
the Scenario B content. -/
theorem sectioner_chapter_marker_merge_witness :
    mergeChapterLines ["BAB II", "TINJAUAN PUSTAKA"] = ["BAB II TINJAUAN PUSTAKA"]
    ∧ sectionContent "BAB I\nPENDAHULUAN\n..."
        = { nodes := [{ title := "BAB I PENDAHULUAN", level := 0, paragraphs := ["..."],
                        kind := SKind.chapter, confidence := 90 }],
            warnings := [] } :=
  ⟨(sectioner_chapter_marker_merge "BAB II" "TINJAUAN PUSTAKA" [] (by decide) (by decide)).1,
   (sectioner_chapter_marker_merge "BAB II" "TINJAUAN PUSTAKA" [] (by decide) (by decide)).2⟩

/-- C8: `uploadTemplate` validates purely locally — it resolves with the
file's own name exactly when the name ends in `.docx` and the size is at most
50 MiB; a wrong extension gives a 400 `ApiError` reading
`"Invalid template file"`, an oversized `.docx` one reading
`"Template file too large"`. -/
theorem uploadTemplate_validation (f : FileInfo) :
    (strEndsWith f.name ".docx" = true → f.size ≤ 50 * 1024 * 1024 →
      uploadTemplate f = Except.ok (f.name, "Template validated - ready to use"))
    ∧ (strEndsWith f.name ".docx" = false →
      uploadTemplate f
        = Except.error ⟨400, "Invalid template file", some "Template must be a .docx file"⟩)
    ∧ (strEndsWith f.name ".docx" = true → 50 * 1024 * 1024 < f.size →
      uploadTemplate f
        = Except.error ⟨400, "Template file too large", some "Template must be less than 50MB"⟩) := by
  refine ⟨fun h1 h2 => ?_, fun h1 => ?_, fun h1 h2 => ?_⟩
  · simp [uploadTemplate, h1, Nat.not_lt.mpr h2]
  · simp [uploadTemplate, h1]
  · simp [uploadTemplate, h1, h2]

/-- Witness for C8: a small `.docx` file is accepted with its own name as the
reference, a `.txt` file is rejected with status 400. -/
theorem uploadTemplate_validation_witness :
    uploadTemplate ⟨"skripsi.docx", 1024⟩
        = Except.ok ("skripsi.docx", "Template validated - ready to use")
    ∧ uploadTemplate ⟨"skripsi.txt", 1024⟩
        = Except.error ⟨400, "Invalid template file", some "Template must be a .docx file"⟩ :=
  ⟨(uploadTemplate_validation ⟨"skripsi.docx", 1024⟩).1 (by decide) (by decide),
   (uploadTemplate_validation ⟨"skripsi.txt", 1024⟩).2.1 (by decide)⟩

/-- Replacing the first occurrence: when the pattern's first occurrence in
`a ++ pat ++ b` is the displayed one, `replaceFirstAux` rewrites exactly it. -/
theorem replaceFirstAux_at (pat repl : List Char) (hp : pat ≠ []) :
    ∀ a b : List Char, noOccurrenceBefore pat (a ++ pat ++ b) a.length →
      replaceFirstAux pat repl (a ++ pat ++ b) = a ++ repl ++ b := by
  intro a
  induction a with
  | nil =>
    intro b _
    obtain ⟨p, ps, rfl⟩ : ∃ p ps, pat = p :: ps := by
      cases pat with
      | nil => exact absurd rfl hp
      | cons p ps => exact ⟨p, ps, rfl⟩
    have hpre : (p :: ps).isPrefixOf (p :: (ps ++ b)) = true := by
      rw [List.isPrefixOf_iff_prefix]
      exact ⟨b, by simp⟩
    show replaceFirstAux (p :: ps) repl (p :: (ps ++ b)) = repl ++ b
    simp only [replaceFirstAux, hpre, if_true]
    simp [List.drop_left]
  | cons c a2 ih =>
    intro b h
    have h0 := h 0 (Nat.succ_pos _)
    simp only [List.drop_zero] at h0
    have hnp : pat.isPrefixOf (c :: (a2 ++ pat ++ b)) = false := by
      cases hv : pat.isPrefixOf (c :: (a2 ++ pat ++ b)) with
      | true => exact absurd (by simpa using hv) h0
      | false => rfl
    show replaceFirstAux pat repl (c :: (a2 ++ pat ++ b)) = c :: (a2 ++ repl ++ b)
    simp only [replaceFirstAux, hnp, Bool.false_eq_true, if_false]
    congr 1
    refine ih b (fun i hi => ?_)
    have := h (i + 1) (Nat.succ_lt_succ hi)
    simpa [List.drop_succ_cons] using this

/-- Concatenation of three strings through their character lists. -/
theorem mk_append3 (x y z : String) :
    String.mk (x.toList ++ y.toList ++ z.toList) = x ++ y ++ z := by
  cases x
  cases y
  cases z
  rfl

/-- C10: when the HTTP response carries no content-disposition filename, both
download filenames are deterministic functions of the request inputs:
`enforceDocument` rewrites the first `".docx"` of the uploaded name to
`"_enforced.docx"` and `generateFromText` uses `"formatted."` plus the
lower-cased output format. -/
theorem response_filename_derivation (a b fmt : String)
    (h : noOccurrenceBefore ".docx".toList ((a ++ ".docx" ++ b).toList) a.toList.length) :
    enforceDocumentFilename none (a ++ ".docx" ++ b) = a ++ "_enforced.docx" ++ b
    ∧ generateFromTextFilename none fmt = "formatted." ++ strLower fmt := by
  constructor
  · show jsReplaceFirst (a ++ ".docx" ++ b) ".docx" "_enforced.docx" = a ++ "_enforced.docx" ++ b
    have hlist : (a ++ ".docx" ++ b).toList = a.toList ++ ".docx".toList ++ b.toList := by
      cases a
      cases b
      rfl
    unfold jsReplaceFirst
    rw [if_neg (by decide)]
    rw [hlist]
    rw [replaceFirstAux_at _ _ (by decide) a.toList b.toList (by rw [← hlist]; simpa using h)]
    exact mk_append3 a "_enforced.docx" b
  · rfl

/-- Witness for C10: the file `thesis.docx` downloads as
`thesis_enforced.docx`, and format `DOCX` downloads as `formatted.docx`. -/
theorem response_filename_derivation_witness :
    enforceDocumentFilename none ("thesis" ++ ".docx" ++ "") = "thesis" ++ "_enforced.docx" ++ ""
    ∧ generateFromTextFilename none "DOCX" = "formatted." ++ strLower "DOCX" :=
  response_filename_derivation "thesis" "" "DOCX" (by decide)

/-- Counterexample for C5: a backend failure whose Axios message carries the
pipeline error text does not reach the caller unchanged — the catch block of
`generateFromText` substitutes the fixed generic message, and `formatThesis`
behaves the same way. -/
theorem pipeline_error_replaced_counterexample :
    (generateFromTextCatch ⟨some 422, some "Unprocessable Entity",
        "TemplateParseError: profiling failed: no heading styles discoverable"⟩).message
      = "Failed to generate formatted document"
    ∧ (generateFromTextCatch ⟨some 422, some "Unprocessable Entity",
        "TemplateParseError: profiling failed: no heading styles discoverable"⟩).message
      ≠ "TemplateParseError: profiling failed: no heading styles discoverable"
    ∧ (formatThesisCatch ⟨some 500, none, "MergeError: page-break phase failed"⟩).message
      = "Failed to format thesis" :=
  ⟨rfl, by decide, rfl⟩

/-- C5 (amended): the frontend layer wraps every backend failure in a fresh
`ApiError` carrying a fixed generic message per endpoint, the HTTP status
(500 when absent or zero) and only the HTTP status text — falling back to the
Axios message — as detail; the original error object is never forwarded. -/
theorem frontend_error_wrapping (e : AxiosErrorModel) :
    (generateFromTextCatch e).message = "Failed to generate formatted document"
    ∧ (formatThesisCatch e).message = "Failed to format thesis"
    ∧ (generateFromTextCatch e).status = jsOrNum e.responseStatus 500
    ∧ (generateFromTextCatch e).detail = some (jsOr e.responseStatusText e.message)
    ∧ (formatThesisCatch e).status = jsOrNum e.responseStatus 500
    ∧ (formatThesisCatch e).detail = some (jsOr e.responseStatusText e.message) :=
  ⟨rfl, rfl, rfl, rfl, rfl, rfl⟩

/-- Counterexample for C9: with the front-matter block active and an empty
`frontmatterData`, `generateFromText` sends `"ABSTRAK"` — not the empty
string — as the `abstrak_id` fallback. -/
theorem generate_abstrakId_fallback_counterexample :
    (generateFromTextForm (some "template.docx") none "content.txt" "docx" true
        (some ⟨none, none, none, none, none, none, none, none, none⟩)).map
      (fun l => l.lookup "abstrak_id") = Except.ok (some "ABSTRAK")
    ∧ "ABSTRAK" ≠ "" :=
  ⟨rfl, by decide⟩

/-- C9 (amended): `enforceDocument` always sends all nine front-matter fields
with fixed defaults regardless of the flag, while `generateFromText` appends
them only when the flag is set and data is provided, falling back to the
empty string for every field except `abstrak_id`, whose fallback is
`"ABSTRAK"`. -/
theorem frontmatter_field_policy (fileName : String) (inc : Bool) (fd : Option FrontmatterData)
    (yr tn cn fmt : String) (d : FrontmatterData) :
    (∀ k, k ∈ fmFieldKeys →
      (enforceDocumentForm fileName inc fd yr).lookup k
        = some (jsOr (fd.bind (fmFieldOf k)) (fmDefaultOf yr k)))
    ∧ (∀ k, k ∈ fmFieldKeys →
      (generateFromTextForm (some tn) none cn fmt false fd).map (fun l => l.lookup k)
        = Except.ok none)
    ∧ (∀ k, k ∈ fmFieldKeys →
      (generateFromTextForm (some tn) none cn fmt inc none).map (fun l => l.lookup k)
        = Except.ok none)
    ∧ generateFromTextForm (some tn) none cn fmt true (some d)
        = Except.ok
          [("template_file", tn), ("content_file", cn), ("output_format", fmt),
           ("include_frontmatter", "true"),
           ("judul", jsOr d.judul ""), ("penulis", jsOr d.penulis ""),
           ("nim", jsOr d.nim ""), ("universitas", jsOr d.universitas ""),
           ("tahun", jsOr d.tahun ""), ("abstrak_id", jsOr d.abstrak_id "ABSTRAK"),
           ("abstrak_teks", jsOr d.abstrak_teks ""),
           ("abstrak_en_teks", jsOr d.abstrak_en_teks ""),
           ("kata_kunci", jsOr d.kata_kunci "")] := by
  refine ⟨fun k hk => ?_, fun k hk => ?_, fun k hk => ?_, ?_⟩
  · simp only [fmFieldKeys, List.mem_cons, List.not_mem_nil, or_false] at hk
    rcases hk with rfl | rfl | rfl | rfl | rfl | rfl | rfl | rfl | rfl <;> rfl
  · simp only [fmFieldKeys, List.mem_cons, List.not_mem_nil, or_false] at hk
    rcases hk with rfl | rfl | rfl | rfl | rfl | rfl | rfl | rfl | rfl <;> rfl
  · simp only [fmFieldKeys, List.mem_cons, List.not_mem_nil, or_false] at hk
    rcases hk with rfl | rfl | rfl | rfl | rfl | rfl | rfl | rfl | rfl <;>
      cases inc <;> rfl
  · rfl

/-- Witness for C9 (amended): concrete lookups of `judul` and `abstrak_id`. -/
theorem frontmatter_field_policy_witness :
    (enforceDocumentForm "skripsi.docx" false none "2025").lookup "judul"
      = some "JUDUL SKRIPSI"
    ∧ (generateFromTextForm (some "t.docx") none "c.txt" "docx" false none).map
        (fun l => l.lookup "judul") = Except.ok none :=
  ⟨(frontmatter_field_policy "skripsi.docx" false none "2025" "t.docx" "c.txt" "docx"
      ⟨none, none, none, none, none, none, none, none, none⟩).1 "judul" (by decide),
   (frontmatter_field_policy "skripsi.docx" false none "2025" "t.docx" "c.txt" "docx"
      ⟨none, none, none, none, none, none, none, none, none⟩).2.1 "judul" (by decide)⟩

/-- A category no node provides is never found by `find?`. -/
theorem find?_eq_none_of_not_provides (t : SectionTree) (c : String)
    (h : providesCat t c = false) : t.nodes.find? (fmMatches c) = none := by
  rw [List.find?_eq_none]
  intro x hx hpx
  have h2 : t.nodes.any (fmMatches c) = false := h
  have : t.nodes.any (fmMatches c) = true := List.any_eq_true.mpr ⟨x, hx, hpx⟩
  rw [h2] at this
  exact Bool.false_ne_true this

/-- A warning raised for one category survives into the assembled warning list. -/
theorem mem_fmWarns (t : SectionTree) (meta : UserMeta) (a : ActionPlan)
    (synthResp : Option (List (String × String))) (w c : String) :
    ∀ cs : List String, c ∈ cs → w ∈ fmParasWarn t meta a synthResp c →
      w ∈ fmWarns t meta a synthResp cs := by
  intro cs
  induction cs with
  | nil => intro h; exact absurd h (List.not_mem_nil c)
  | cons c2 cs ih =>
    intro hmem hw
    rcases List.mem_cons.mp hmem with rfl | htail
    · exact List.mem_append_left _ hw
    · exact List.mem_append_right _ (ih htail hw)

/-- C6: collaborator unavailability never fails the run — the AI-availability
query returns `ai_available = false` instead of throwing, an unreachable or
timed-out classifier leaves `plan` exactly as accepting and records a warning,
and an absent synthesis response makes `merge` fall back to a blank shell with
a warning. -/
theorem collaborator_unavailability_downgraded :
    (∀ e : AxiosErrorModel,
      getAIAnalysisStatus (Except.error e) = ⟨false, false, [], some e.message⟩)
    ∧ (∀ (p : TemplateProfile) (t : SectionTree) (meta : UserMeta) (cfg : PipelineConfig),
        cfg.classifier ≠ CollabStatus.available → hasLowConfidence t cfg = true →
        (plan p t meta cfg).isOk
            = (plan p t meta { cfg with classifier := CollabStatus.available }).isOk
        ∧ ∀ a : ActionPlan, plan p t meta cfg = Except.ok a →
            "semantic classifier unavailable; keeping rule-based classification" ∈ a.warnings)
    ∧ (∀ (p : TemplateProfile) (t : SectionTree) (a : ActionPlan) (meta : UserMeta)
        (ts : Nat) (c : String),
        c ∈ p.requiredFrontMatter → providesCat t c = false →
        metaSupplies meta c = none →
        a.missingCategories.lookup c = some FMTag.synthesize →
        ("synthesis collaborator unavailable; inserted blank shell for " ++ c)
          ∈ (merge p t a meta none ts).2.warnings) := by
  refine ⟨fun e => rfl, fun p t meta cfg hne hlow => ⟨?_, ?_⟩, ?_⟩
  · by_cases hcond :
      (3 ≤ p.headingChain.length && t.nodes.all (fun n => !isHeadingKind n.kind)) = true
    · simp [plan, hcond]
    · simp only [plan]
      rw [if_neg hcond, if_neg hcond]
      rfl
  · intro a ha
    unfold plan at ha
    split at ha
    · exact absurd ha (by simp)
    · cases ha
      have hbne : (cfg.classifier != CollabStatus.available) = true := bne_iff_ne.mpr hne
      simp [hlow, hbne]
  · intro p t a meta ts c hreq hprov hmeta hlook
    have h1 : t.nodes.find? (fmMatches c) = none := find?_eq_none_of_not_provides t c hprov
    have hw : ("synthesis collaborator unavailable; inserted blank shell for " ++ c)
        ∈ fmParasWarn t meta a none c := by
      simp [fmParasWarn, h1, hmeta, hlook]
    have hmem := mem_fmWarns t meta a none _ c p.requiredFrontMatter hreq hw
    show _ ∈ (merge p t a meta none ts).2.warnings
    simp only [merge, mergeCore]
    exact List.mem_append_right _ hmem

/-- Witness for C6: a timed-out status query, the warning of the plan built
with an unreachable classifier, and the blank-shell warning of a merge run
without a synthesis response. -/
theorem collaborator_unavailability_downgraded_witness :
    getAIAnalysisStatus (Except.error ⟨none, none, "timeout of 30000ms exceeded"⟩)
      = ⟨false, false, [], some "timeout of 30000ms exceeded"⟩
    ∧ "semantic classifier unavailable; keeping rule-based classification" ∈ aLow.warnings
    ∧ ("synthesis collaborator unavailable; inserted blank shell for " ++ "abstract")
        ∈ (merge pDemo tLow aSynth metaDemo none 0).2.warnings :=
  ⟨collaborator_unavailability_downgraded.1 ⟨none, none, "timeout of 30000ms exceeded"⟩,
   (collaborator_unavailability_downgraded.2.1 pDemo tLow metaDemo cfgDemo (by decide)
      (by decide)).2 aLow (by rfl),
   collaborator_unavailability_downgraded.2.2 pDemo tLow aSynth metaDemo 0 "abstract"
      (by decide) (by decide) (by rfl) (by rfl)⟩

/-- Occurrences of an element split across a filter and its complement. -/
theorem countP_filter_split (l : List String) (P : String → Bool) (c : String) :
    (l.filter P).countP (fun x => x == c) + (l.filter (fun x => !P x)).countP (fun x => x == c)
      = l.countP (fun x => x == c) := by
  induction l with
  | nil => simp
  | cons a l ih =>
    by_cases h : P a = true <;>
      simp [List.filter_cons, h, List.countP_cons] <;> omega

/-- The front-matter category collector never records a category twice. -/
theorem collectFMAux_nodup (paras : List String) :
    ∀ acc : List String, acc.Nodup → (collectFMAux paras acc).Nodup := by
  induction paras with
  | nil => intro acc h; exact h
  | cons txt rest ih =>
    intro acc h
    apply ih
    refine List.Nodup.append h ((by decide : fmVocab.Nodup).filter _) ?_
    intro x hx hxf
    have hpred := List.of_mem_filter hxf
    simp only [Bool.and_eq_true, Bool.not_eq_true'] at hpred
    have hcontains : acc.contains x = true := List.elem_iff.mpr hx
    rw [hpred.2] at hcontains
    exact Bool.false_ne_true hcontains

/-- A profile returned by `profile` lists each required front-matter category
exactly once. -/
theorem profile_requiredFrontMatter_nodup (d : TemplateDoc) (pr : TemplateProfile)
    (h : profile d = Except.ok pr) : pr.requiredFrontMatter.Nodup := by
  unfold profile at h
  by_cases hr : d.readable
  · simp only [hr] at h
    by_cases hc : (headingChainOf d).isEmpty
    · simp [hc] at h
    · simp only [hc, Bool.false_eq_true, if_false, Bool.not_false, if_true] at h
      cases h
      exact collectFMAux_nodup _ [] List.nodup_nil
  · simp [hr] at h

/-- C1: for every profile returned by `profile` and every tree accepted by
`plan`, each required front-matter category lands in exactly one of
`sectionBindings` and `missingCategories` — never both, never neither. -/
theorem plan_requiredFrontMatter_coverage
    (d : TemplateDoc) (p : TemplateProfile) (t : SectionTree) (meta : UserMeta)
    (cfg : PipelineConfig) (a : ActionPlan) (c : String)
    (hp : profile d = Except.ok p)
    (ha : plan p t meta cfg = Except.ok a)
    (hc : c ∈ p.requiredFrontMatter) :
    a.sectionBindings.countP (fun b => decide (b.slot = Slot.fmSlot c))
      + (a.missingCategories.map Prod.fst).count c = 1 := by
  have hnd := profile_requiredFrontMatter_nodup d p hp
  unfold plan at ha
  split at ha
  · exact absurd ha (by simp)
  · cases ha
    simp only [List.countP_append, List.countP_map, List.map_map]
    have h1 : List.countP
        ((fun b => decide (b.slot = Slot.fmSlot c)) ∘
          (fun x : Nat × (Nat × SectionNode) =>
            (⟨x.2.1, Slot.chapterSlot x.1, p.headingChain.headD ""⟩ : Binding)))
        ((t.nodes.enum.filter (fun x => x.2.kind == SKind.chapter)).enum) = 0 := by
      apply List.countP_eq_zero.mpr
      intro x _
      simp
    have h2 : List.countP
        ((fun b => decide (b.slot = Slot.fmSlot c)) ∘
          (fun c2 =>
            (⟨t.nodes.findIdx (fmMatches c2), Slot.fmSlot c2, fmStyleOf p⟩ : Binding)))
        (p.requiredFrontMatter.filter (fun c2 => providesCat t c2))
        = (p.requiredFrontMatter.filter (fun c2 => providesCat t c2)).countP
            (fun x => x == c) := by
      apply List.countP_congr
      intro x _
      constructor
      · intro hx
        simp only [Function.comp, decide_eq_true_eq, Slot.fmSlot.injEq] at hx
        simp [hx]
      · intro hx
        have : x = c := by simpa using hx
        simp [Function.comp, this]
    rw [h1, h2]
    have h3 : ((Prod.fst ∘ fun c2 => (c2, fmTag cfg c2))
        : String → String) = id := by
      funext x
      rfl
    rw [h3, List.map_id]
    have h4 : (p.requiredFrontMatter.filter (fun c2 => !providesCat t c2)).count c
        = (p.requiredFrontMatter.filter (fun c2 => !providesCat t c2)).countP
            (fun x => x == c) :=
      List.count_eq_countP _ _
    rw [Nat.zero_add, h4, countP_filter_split, ← List.count_eq_countP]
    exact List.count_eq_one_of_mem hnd hc

/-- Witness for C1: in the demonstration plan, the `abstract` category is
bound to a section exactly once and absent from `missingCategories`. -/
theorem plan_requiredFrontMatter_coverage_witness :
    aDemo.sectionBindings.countP (fun b => decide (b.slot = Slot.fmSlot "abstract"))
      + (aDemo.missingCategories.map Prod.fst).count "abstract" = 1 :=
  plan_requiredFrontMatter_coverage dDemo pDemo tDemo metaDemo cfgDemo aDemo "abstract"
    (by rfl) (by rfl) (by decide)

/-- A kind-preserving paragraph transformation preserves the chapter count. -/
theorem countCh_map (f : DocPara → DocPara) (hf : ∀ q, (f q).kind = q.kind)
    (l : List DocPara) : countCh (l.map f) = countCh l := by
  unfold countCh
  rw [List.countP_map]
  apply List.countP_congr
  intro x _
  simp [Function.comp, hf x]

/-- Filtering away only paragraphs that fail `q` preserves the `q`-count. -/
theorem countP_filter_of_imp (l : List DocPara) (p q : DocPara → Bool)
    (h : ∀ x ∈ l, q x = true → p x = true) :
    (l.filter p).countP q = l.countP q := by
  induction l with
  | nil => rfl
  | cons a l ih =>
    have ih2 := ih (fun x hx => h x (List.mem_cons_of_mem a hx))
    by_cases hp : p a = true
    · simp [List.filter_cons, hp, List.countP_cons, ih2]
    · have hq : q a = false := by
        cases hqa : q a with
        | true => exact absurd (h a (List.mem_cons_self a l) hqa) hp
        | false => rfl
      simp [List.filter_cons, hp, List.countP_cons, ih2, hq]

/-- The heading+title merge absorbs only non-chapter paragraphs, so the
chapter count is unchanged. -/
theorem countCh_mergeAdj : ∀ l : List DocPara, countCh (mergeAdj l) = countCh l
  | [] => rfl
  | [_] => rfl
  | q :: q2 :: rest => by
    by_cases h : mergeablePair q q2 = true
    · have ih := countCh_mergeAdj rest
      have hq2 : (q2.kind == SKind.chapter) = false := by
        have h2 := h
        simp only [mergeablePair, Bool.and_eq_true, bne_iff_ne] at h2
        simpa using h2.1.2
      simp only [mergeAdj, h, if_true]
      simp only [countCh, List.countP_cons] at ih ⊢
      simp [hq2]
      omega
    · have hb : mergeablePair q q2 = false := by simpa using h
      have ih := countCh_mergeAdj (q2 :: rest)
      simp only [mergeAdj, hb, Bool.false_eq_true, if_false]
      simp only [countCh, List.countP_cons] at ih ⊢
      omega

/-- Each node contributes one chapter paragraph exactly when it is a chapter. -/
theorem countCh_nodeParas (n : SectionNode) :
    countCh (nodeParas n) = if n.kind == SKind.chapter then 1 else 0 := by
  unfold countCh nodeParas
  rw [List.countP_cons, List.countP_map]
  have h0 : List.countP
      ((fun q : DocPara => q.kind == SKind.chapter) ∘
        (fun txt => (⟨"Normal", txt, SKind.paragraph, n.level + 1, false⟩ : DocPara)))
      n.paragraphs = 0 := by
    apply List.countP_eq_zero.mpr
    intro x _
    simp
  rw [h0]
  by_cases h : (n.kind == SKind.chapter) = true <;> simp [h]

/-- Chapter paragraphs of an arena segment count its chapter nodes. -/
theorem countCh_parasOfNodes : ∀ ns : List SectionNode,
    countCh (parasOfNodes ns) = ns.countP (fun n => n.kind == SKind.chapter)
  | [] => rfl
  | n :: ns => by
    show countCh (nodeParas n ++ parasOfNodes ns) = _
    unfold countCh at *
    rw [List.countP_append, List.countP_cons]
    have h1 := countCh_nodeParas n
    have h2 := countCh_parasOfNodes ns
    unfold countCh at h1 h2
    rw [h1, h2]
    by_cases h : (n.kind == SKind.chapter) = true
    · simp [h]
      omega
    · simp [h]

/-- A chapter node is never claimed by a front-matter category. -/
theorem chapter_not_fmBound (p : TemplateProfile) (n : SectionNode)
    (h : (n.kind == SKind.chapter) = true) : (!isFMBound p n) = true := by
  have hk : n.kind = SKind.chapter := by simpa using h
  simp only [Bool.not_eq_true', isFMBound]
  apply List.any_eq_false.mpr
  intro c _
  simp [fmMatches, hk]

/-- Filtering away only nodes that fail `q` preserves the `q`-count (node
version of `countP_filter_of_imp`). -/
theorem countP_filter_of_imp_nodes (l : List SectionNode) (p q : SectionNode → Bool)
    (h : ∀ x ∈ l, q x = true → p x = true) :
    (l.filter p).countP q = l.countP q := by
  induction l with
  | nil => rfl
  | cons a l ih =>
    have ih2 := ih (fun x hx => h x (List.mem_cons_of_mem a hx))
    by_cases hp : p a = true
    · simp [List.filter_cons, hp, List.countP_cons, ih2]
    · have hq : q a = false := by
        cases hqa : q a with
        | true => exact absurd (h a (List.mem_cons_self a l) hqa) hp
        | false => rfl
      simp [List.filter_cons, hp, List.countP_cons, ih2, hq]

/-- The chapter body carries exactly the tree's chapter nodes. -/
theorem countCh_bodyDoc (p : TemplateProfile) (t : SectionTree) :
    countCh (bodyDoc p t) = chapterCount t := by
  unfold bodyDoc chapterCount
  rw [countCh_parasOfNodes]
  exact countP_filter_of_imp_nodes t.nodes _ _ (fun n _ h => chapter_not_fmBound p n h)

/-- The table-of-contents rebuild removes only non-chapter content. -/
theorem countCh_phaseToc (l : List DocPara) : countCh (phaseToc l) = countCh l := by
  unfold phaseToc countCh
  rw [List.countP_cons]
  have h1 : ((tocFieldPara.kind == SKind.chapter) = true) = False := by
    simp [tocFieldPara]
  have h2 : (l.filter (fun q => !isStaticTocPara q)).countP (fun q => q.kind == SKind.chapter)
      = l.countP (fun q => q.kind == SKind.chapter) := by
    apply countP_filter_of_imp
    intro x _ hx
    have hk : x.kind = SKind.chapter := by simpa using hx
    simp [isStaticTocPara, hk]
  simp [h2, tocFieldPara]

/-- Page-break counting with a chapter already passed counts every chapter. -/
theorem countBreaks_true (l : List DocPara) : countBreaks true l = countCh l := by
  induction l with
  | nil => rfl
  | cons q qs ih =>
    by_cases h : (q.kind == SKind.chapter) = true <;>
      simp [countBreaks, h, countCh, List.countP_cons] at ih ⊢ <;> omega

/-- Page-break counting from the start skips exactly the first chapter. -/
theorem countBreaks_false (l : List DocPara) : countBreaks false l = countCh l - 1 := by
  induction l with
  | nil => rfl
  | cons q qs ih =>
    by_cases h : (q.kind == SKind.chapter) = true
    · have ht := countBreaks_true qs
      simp [countBreaks, h, countCh, List.countP_cons] at ht ⊢
      omega
    · simp [countBreaks, h, countCh, List.countP_cons] at ih ⊢
      omega

/-- A list's `any` is the positivity of its `countP`. -/
theorem any_eq_decide_countP (l : List DocPara) (pr : DocPara → Bool) :
    l.any pr = decide (0 < l.countP pr) := by
  cases hv : l.any pr with
  | true =>
    obtain ⟨x, hx, hpx⟩ := List.any_eq_true.mp hv
    have := List.countP_pos_iff.mpr ⟨x, hx, hpx⟩
    simp [this]
  | false =>
    have hall : ∀ x ∈ l, ¬pr x = true := by
      intro x hx hpx
      have := List.any_eq_true.mpr ⟨x, hx, hpx⟩
      rw [hv] at this
      exact Bool.false_ne_true this
    have h0 : l.countP pr = 0 := List.countP_eq_zero.mpr hall
    simp [h0]

/-- Every paragraph assembled for front matter has kind `paragraph`. -/
theorem fmParasDoc_kind (t : SectionTree) (meta : UserMeta) (a : ActionPlan)
    (sr : Option (List (String × String))) (c : String) :
    ∀ q ∈ fmParasDoc t meta a sr c, q.kind = SKind.paragraph := by
  intro q hq
  unfold fmParasDoc at hq
  split at hq
  · rcases List.mem_cons.mp hq with rfl | htail
    · rfl
    · obtain ⟨x, _, rfl⟩ := List.mem_map.mp htail
      rfl
  · split at hq
    · simp at hq
      subst hq
      rfl
    · split at hq
      · split at hq <;> (simp at hq; subst hq; rfl)
      · simp at hq
        subst hq
        rfl

/-- The assembled front-matter block contains no chapter paragraphs. -/
theorem fmDocs_kind (t : SectionTree) (meta : UserMeta) (a : ActionPlan)
    (sr : Option (List (String × String))) :
    ∀ cs : List String, ∀ q ∈ fmDocs t meta a sr cs, q.kind = SKind.paragraph
  | [], q, hq => absurd hq (List.not_mem_nil q)
  | c :: cs, q, hq => by
    rcases List.mem_append.mp hq with hl | hr
    · exact fmParasDoc_kind t meta a sr c q hl
    · exact fmDocs_kind t meta a sr cs q hr

/-- The front-matter block disappears from the chapter listing. -/
theorem chaptersOf_fmDocs (t : SectionTree) (meta : UserMeta) (a : ActionPlan)
    (sr : Option (List (String × String))) (cs : List String) :
    chaptersOf (fmDocs t meta a sr cs) = [] := by
  unfold chaptersOf
  apply List.filter_eq_nil_iff.mpr
  intro q hq
  simp [fmDocs_kind t meta a sr cs q hq]

/-- Marking from a passed chapter sets the break on every chapter paragraph. -/
theorem chaptersOf_markBreaks_true (l : List DocPara) :
    chaptersOf (markBreaks true l)
      = (chaptersOf l).map (fun q => { q with pageBreakBefore := true }) := by
  induction l with
  | nil => rfl
  | cons q qs ih =>
    by_cases h : (q.kind == SKind.chapter) = true <;>
      simp [markBreaks, chaptersOf, List.filter_cons, h] at ih ⊢ <;>
      simpa [chaptersOf] using ih

/-- Marking from the start leaves the first chapter unbroken and breaks all
later chapters. -/
theorem chaptersOf_markBreaks_false (l : List DocPara) :
    chaptersOf (markBreaks false l)
      = (match chaptersOf l with
        | [] => []
        | q :: qs => q :: qs.map (fun q2 => { q2 with pageBreakBefore := true })) := by
  induction l with
  | nil => rfl
  | cons q qs ih =>
    by_cases h : (q.kind == SKind.chapter) = true
    · simp only [markBreaks, h, if_true, chaptersOf, List.filter_cons]
      have := chaptersOf_markBreaks_true qs
      unfold chaptersOf at this
      simp [h, this]
    · simp only [markBreaks, h, Bool.false_eq_true, if_false, chaptersOf, List.filter_cons]
      have := ih
      unfold chaptersOf at this
      simp [h, this]

/-- All working-copy paragraphs built from the tree start without page breaks. -/
theorem pb_parasOfNodes : ∀ ns : List SectionNode, ∀ q ∈ parasOfNodes ns,
    q.pageBreakBefore = false
  | [], q, hq => absurd hq (List.not_mem_nil q)
  | n :: ns, q, hq => by
    rcases List.mem_append.mp hq with hl | hr
    · rcases List.mem_cons.mp hl with rfl | htail
      · rfl
      · obtain ⟨x, _, rfl⟩ := List.mem_map.mp htail
        rfl
    · exact pb_parasOfNodes ns q hr

/-- A transformation that keeps `pageBreakBefore` keeps break-freeness. -/
theorem pb_map (f : DocPara → DocPara) (hf : ∀ q, (f q).pageBreakBefore = q.pageBreakBefore)
    (l : List DocPara) (h : ∀ q ∈ l, q.pageBreakBefore = false) :
    ∀ q ∈ l.map f, q.pageBreakBefore = false := by
  intro q hq
  obtain ⟨x, hx, rfl⟩ := List.mem_map.mp hq
  rw [hf]
  exact h x hx

/-- The heading+title merge keeps break-freeness. -/
theorem pb_mergeAdj : ∀ l : List DocPara, (∀ q ∈ l, q.pageBreakBefore = false) →
    ∀ q ∈ mergeAdj l, q.pageBreakBefore = false
  | [], _, q, hq => absurd hq (List.not_mem_nil q)
  | [x], h, q, hq => by
    simp only [mergeAdj] at hq
    rcases (by simpa using hq : q = x) with rfl
    exact h _ (List.mem_cons_self _ _)
  | x :: x2 :: rest, h, q, hq => by
    by_cases hm : mergeablePair x x2 = true
    · simp only [mergeAdj, hm, if_true] at hq
      rcases List.mem_cons.mp hq with rfl | htail
      · exact h x (List.mem_cons_self x _)
      · exact pb_mergeAdj rest (fun q2 hq2 => h q2 (by simp [hq2])) q htail
    · simp only [mergeAdj, hm, Bool.false_eq_true, if_false] at hq
      rcases List.mem_cons.mp hq with rfl | htail
      · exact h _ (List.mem_cons_self _ _)
      · exact pb_mergeAdj (x2 :: rest) (fun q2 hq2 => h q2 (by simp [List.mem_cons.mp hq2])) q htail

/-- All paragraphs reaching the page-break phase are break-free. -/
theorem pb_doc5 (p : TemplateProfile) (t : SectionTree) (a : ActionPlan) :
    ∀ q ∈ phaseToc (((mergeAdj ((bodyDoc p t).map
        (substPara a.placeholderBindings))).map (paraStylePara p)).map (headingStylePara p)),
      q.pageBreakBefore = false := by
  intro q hq
  unfold phaseToc at hq
  rcases List.mem_cons.mp hq with rfl | htail
  · rfl
  · have hsub := (List.mem_filter.mp htail).1
    refine pb_map (headingStylePara p) ?_ _ ?_ q hsub
    · intro q2
      unfold headingStylePara
      split <;> rfl
    · refine pb_map (paraStylePara p) ?_ _ ?_
      · intro q2
        unfold paraStylePara
        split <;> rfl
      · refine pb_mergeAdj _ ?_
        refine pb_map (substPara a.placeholderBindings) (fun _ => rfl) _ ?_
        exact pb_parasOfNodes _

/-- C3: the page-break phase of `merge` inserts a forced break before every
chapter except the first, resets page numbering exactly when a chapter
exists, and for a tree with exactly two chapters reports
`pageBreaksInserted = 1`. -/
theorem merge_page_break_enforcement (p : TemplateProfile) (t : SectionTree)
    (a : ActionPlan) (meta : UserMeta) (s : Option (List (String × String))) (ts : Nat) :
    (merge p t a meta s ts).2.pageBreaksInserted = chapterCount t - 1
    ∧ (merge p t a meta s ts).2.numberingReset = decide (0 < chapterCount t)
    ∧ (∀ q ∈ (chaptersOf (merge p t a meta s ts).1).drop 1, q.pageBreakBefore = true)
    ∧ (∀ q ∈ (chaptersOf (merge p t a meta s ts).1).take 1, q.pageBreakBefore = false)
    ∧ (chapterCount t = 2 → (merge p t a meta s ts).2.pageBreaksInserted = 1) := by
  have hD : countCh (phaseToc (((mergeAdj ((bodyDoc p t).map
      (substPara a.placeholderBindings))).map (paraStylePara p)).map (headingStylePara p)))
      = chapterCount t := by
    rw [countCh_phaseToc]
    rw [countCh_map (headingStylePara p)
      (by intro q; unfold headingStylePara; split <;> rfl)]
    rw [countCh_map (paraStylePara p)
      (by intro q; unfold paraStylePara; split <;> rfl)]
    rw [countCh_mergeAdj]
    rw [countCh_map (substPara a.placeholderBindings) (fun _ => rfl)]
    exact countCh_bodyDoc p t
  have e1 : (merge p t a meta s ts).2.pageBreaksInserted
      = countBreaks false (phaseToc (((mergeAdj ((bodyDoc p t).map
          (substPara a.placeholderBindings))).map (paraStylePara p)).map
          (headingStylePara p))) := rfl
  have e2 : (merge p t a meta s ts).2.numberingReset
      = (phaseToc (((mergeAdj ((bodyDoc p t).map
          (substPara a.placeholderBindings))).map (paraStylePara p)).map
          (headingStylePara p))).any (fun q => q.kind == SKind.chapter) := rfl
  have e3 : (merge p t a meta s ts).1
      = fmDocs t meta a s p.requiredFrontMatter ++
          markBreaks false (phaseToc (((mergeAdj ((bodyDoc p t).map
            (substPara a.placeholderBindings))).map (paraStylePara p)).map
            (headingStylePara p))) := rfl
  refine ⟨?_, ?_, ?_, ?_, ?_⟩
  · rw [e1, countBreaks_false, hD]
  · rw [e2, any_eq_decide_countP]
    show decide (0 < countCh _) = _
    rw [hD]
  · intro q hq
    rw [e3] at hq
    unfold chaptersOf at hq
    rw [List.filter_append] at hq
    have hfm := chaptersOf_fmDocs t meta a s p.requiredFrontMatter
    unfold chaptersOf at hfm
    rw [hfm, List.nil_append] at hq
    have := chaptersOf_markBreaks_false (phaseToc (((mergeAdj ((bodyDoc p t).map
      (substPara a.placeholderBindings))).map (paraStylePara p)).map (headingStylePara p)))
    unfold chaptersOf at this
    rw [this] at hq
    split at hq
    · simp at hq
    · simp only [List.drop_succ_cons, List.drop_zero] at hq
      obtain ⟨x, _, rfl⟩ := List.mem_map.mp hq
      rfl
  · intro q hq
    rw [e3] at hq
    unfold chaptersOf at hq
    rw [List.filter_append] at hq
    have hfm := chaptersOf_fmDocs t meta a s p.requiredFrontMatter
    unfold chaptersOf at hfm
    rw [hfm, List.nil_append] at hq
    have heq := chaptersOf_markBreaks_false (phaseToc (((mergeAdj ((bodyDoc p t).map
      (substPara a.placeholderBindings))).map (paraStylePara p)).map (headingStylePara p)))
    unfold chaptersOf at heq
    rw [heq] at hq
    split at hq
    · simp at hq
    · rename_i q1 qs hqs
      simp only [List.take_succ_cons, List.take_zero] at hq
      simp at hq
      subst hq
      have hmem : q ∈ List.filter (fun q => q.kind == SKind.chapter)
          (phaseToc (((mergeAdj ((bodyDoc p t).map
            (substPara a.placeholderBindings))).map (paraStylePara p)).map
            (headingStylePara p))) := by
        rw [hqs]
        exact List.mem_cons_self q qs
      exact pb_doc5 p t a q (List.mem_filter.mp hmem).1
  · intro h2
    rw [e1, countBreaks_false, hD, h2]

/-- Witness for C3: the two-chapter demonstration tree yields exactly one
inserted page break. -/
theorem merge_page_break_enforcement_witness :
    (merge pDemo tTwoCh aDemo metaDemo none 0).2.pageBreaksInserted = 1 :=
  (merge_page_break_enforcement pDemo tTwoCh aDemo metaDemo none 0).2.2.2.2 (by decide)

end Folio
